import Mathlib

/-!
Shallow embedding of the exSat validator client's endorsement reconciliation
engine (`src/validator/index.ts`).

The embedding models the module's pure decision logic and its stateful
functions as explicit state-passing Lean functions.  External collaborators
(the Bitcoin RPC client, the ledger table/write API) are modelled as oracle
parameters: each call site receives the value (or thrown error) that the
collaborator would produce there.  A JavaScript function that can throw is
embedded as a function into `Except String _`; `try`/`catch` becomes a match
on that result.
-/

namespace ExsatValidator

/-- One element of a validator list in an endorsement record:
`{account: string, staking: number}`. -/
structure Endorser where
  account : String
  staking : Nat
deriving Repr, DecidableEq

/-- The on-chain endorsement bookkeeping row read via
`tableApi.getEndorsementByBlockId`: who must endorse and who already has. -/
structure EndorsementRecord where
  requested_validators : List Endorser
  provider_validators : List Endorser
deriving Repr, DecidableEq

/-- The module-level mutable variables touched by the reconciliation engine:
`lastEndorseHeight` (line 24) and `lastSubmittedHeight` (line 27). -/
structure RunState where
  lastEndorseHeight : Nat
  lastSubmittedHeight : Nat
deriving Repr, DecidableEq

/-- Level of a `logger.*` call: `logger.info` or `logger.error`. -/
inductive LogLevel where
  | info
  | error
deriving Repr, DecidableEq

/-- One emitted log line: its level and a tag identifying the call site. -/
structure LogEntry where
  level : LogLevel
  tag : String
deriving Repr, DecidableEq

/-- Outcome of one `exsatApi.executeAction` call: either it returns a result
value (whose `transaction_id` field may or may not be present/truthy), or it
throws an error carrying a message string. -/
inductive ExecOutcome where
  | ok (transaction_id : Option String)
  | thrown (msg : String)
deriving Repr, DecidableEq

/-- `pat` occurs as a contiguous run inside `s`. -/
def charsInfix (pat : List Char) : List Char → Bool
  | [] => pat.isEmpty
  | c :: rest => pat.isPrefixOf (c :: rest) || charsInfix pat rest

/-- JavaScript `String.prototype.includes`: `s.includes(pat)`. -/
def jsIncludes (s pat : String) : Bool :=
  charsInfix pat.data s.data

/-- `isEndorserQualified(endorsers, accountName)` (lines 31-36): true iff some
entry of the list has `account === accountName`. -/
def isEndorserQualified (endorsers : List Endorser) (accountName : String) : Bool :=
  endorsers.any fun endorser => endorser.account == accountName

/-- Error message matched by the first `catch` branch of `submitEndorsement`
(line 62). -/
def parsedMsg : String :=
  "blkendt.xsat::endorse: the block has been parsed and does not need to be endorsed"

/-- Error message matched by the second `catch` branch of `submitEndorsement`
(line 64). -/
def disabledMsg : String :=
  "blkendt.xsat::endorse: the current endorsement status is disabled"

/-- `submitEndorsement(validator, height, hash)` (lines 53-70).  The whole body
is a `try`/`catch`; the `catch` classifies the thrown message by substring and
always returns normally.  `outcome` is what `exsatApi.executeAction` does at
this call.  Returns the updated state and the log lines emitted.  The
`Except` codomain records whether the function itself propagates an
exception to its caller. -/
def submitEndorsement (outcome : ExecOutcome) (height : Nat) (st : RunState) :
    Except String (RunState × List LogEntry) :=
  match outcome with
  | .ok transaction_id =>
    match transaction_id with
    | some _ =>
      .ok ({ st with lastEndorseHeight := height },
        [⟨.info, "Submit endorsement success"⟩])
    | none => .ok (st, [])
  | .thrown msg =>
    if jsIncludes msg parsedMsg then
      .ok (st, [⟨.info, "The block has been parsed and does not need to be endorsed"⟩])
    else if jsIncludes msg disabledMsg then
      .ok (st, [⟨.info, "Wait for exsat network endorsement to be enabled"⟩])
    else
      .ok (st, [⟨.error, "Submit endorsement failed"⟩])

/-- `checkAndSubmitEndorsement(accountName, height, hash)` (lines 39-50).
`lookup` is what `tableApi.getEndorsementByBlockId(height, hash)` does at this
call (it may throw); `writeOutcome` is what `exsatApi.executeAction` does if
the Submitter is reached.  The returned `Nat` counts how many times
`submitEndorsement` was invoked during the call. -/
def checkAndSubmitEndorsement (lookup : Except String (Option EndorsementRecord))
    (writeOutcome : ExecOutcome) (accountName : String) (height : Nat)
    (st : RunState) : Except String (RunState × List LogEntry × Nat) :=
  match lookup with
  | .error e => .error e
  | .ok (some endorsement) =>
    let isQualified := isEndorserQualified endorsement.requested_validators accountName
    if isQualified && !isEndorserQualified endorsement.provider_validators accountName then
      match submitEndorsement writeOutcome height st with
      | .error e => .error e
      | .ok (st₁, logs) =>
        .ok ({ st₁ with lastSubmittedHeight := height }, logs, 1)
    else
      .ok (st, [], 0)
  | .ok none =>
    match submitEndorsement writeOutcome height st with
    | .error e => .error e
    | .ok (st₁, logs) => .ok (st₁, logs, 1)

/-- Number of Submitter invocations reported by a `checkAndSubmitEndorsement`
result (0 when the call itself threw before reaching the Submitter). -/
def submitCount (r : Except String (RunState × List LogEntry × Nat)) : Nat :=
  match r with
  | .ok (_, _, n) => n
  | .error _ => 0

/-! ## Catch-up start-height computation (lines 121-125)

JavaScript numeric semantics of the guard: a relational or arithmetic
operator applied to a non-numeric plain object coerces it with `ToNumber`,
which yields `NaN` for objects like the RPC response record; every `<`
comparison involving `NaN` evaluates to `false`. -/

/-- A JavaScript number: an actual numeric value or `NaN`. -/
inductive JSNum where
  | num (n : Int)
  | nan
deriving Repr, DecidableEq

/-- JavaScript subtraction where the left operand is an arbitrary value whose
`ToNumber` coercion is given and the right operand is a number. -/
def jsSub (a : JSNum) (b : Int) : JSNum :=
  match a with
  | .num n => .num (n - b)
  | .nan => .nan

/-- JavaScript `<` between a number and a possibly-`NaN` value:
any comparison with `NaN` is `false`. -/
def jsLt (a : Int) (b : JSNum) : Bool :=
  match b with
  | .num n => a < n
  | .nan => false

/-- The value returned by `getblockcount()`: a JSON-RPC response object whose
`result` field holds the chain tip height (used as `blockcount.result` on
lines 126 and 128). -/
structure BlockcountInfo where
  result : Nat
deriving Repr, DecidableEq

/-- `ToNumber` of the `getblockcount()` response object: a plain object with
no numeric `valueOf`, so coercion produces `NaN`. -/
def toNumber (_ : BlockcountInfo) : JSNum := .nan

/-- Start height computed by the endorse-check cron (lines 122-125):
`startEndorseHeight = irreversible_height + 1`, then replaced by
`lastEndorseHeight` when `lastEndorseHeight > startEndorseHeight &&
lastEndorseHeight < blockcount - 6`.  Note the source compares against
`blockcount - 6` where `blockcount` is the response OBJECT (not
`blockcount.result`), so the right-hand side is `NaN` and the conjunct is
always false. -/
def startEndorseHeight (irreversible_height lastEndorseHeight : Nat)
    (blockcount : BlockcountInfo) : Nat :=
  let s := irreversible_height + 1
  if decide (lastEndorseHeight > s) &&
      jsLt lastEndorseHeight (jsSub (toNumber blockcount) 6) then
    lastEndorseHeight
  else
    s

/-- Modelled from the spec: the start-height selection rule as the spec states
it — "the scan start is `L` iff `L > I+1` and `L < tip - 6`, else `I+1`" —
with the tip read as the numeric chain height. -/
def startEndorseHeightSpec (irreversible_height lastEndorseHeight tip : Nat) : Nat :=
  if decide (lastEndorseHeight > irreversible_height + 1) &&
      decide ((lastEndorseHeight : Int) < (tip : Int) - 6) then
    lastEndorseHeight
  else
    irreversible_height + 1

/-! ## Catch-up scan loop (lines 126-130)

The `for` loop over heights `startEndorseHeight .. blockcount.result` is
embedded as a recursion over the explicit ascending list of those heights.
Per-height collaborator behaviour is supplied by oracles indexed by height:
`getHash h` is what `getblockhash(h)` does, `lookup h` is what
`tableApi.getEndorsementByBlockId(h, hash)` does, `writeOutcome h` is what
`exsatApi.executeAction` does if the Submitter is reached at height `h`. -/

/-- Result of one scan cycle: the final state, the heights whose
`checkAndSubmitEndorsement` call completed (in processing order), and the
error that aborted the cycle, if any (caught by lines 131-133). -/
structure ScanResult where
  state : RunState
  processed : List Nat
  err : Option String
deriving Repr, DecidableEq

/-- Body of the scan loop over an explicit list of heights.  A throw from
`getblockhash` or from `checkAndSubmitEndorsement` (i.e. from the ledger
lookup) aborts the remaining heights; effects of earlier iterations are
kept. -/
def scanHeights (getHash : Nat → Except String String)
    (lookup : Nat → Except String (Option EndorsementRecord))
    (writeOutcome : Nat → ExecOutcome) (accountName : String) :
    List Nat → RunState → ScanResult
  | [], st => ⟨st, [], none⟩
  | i :: rest, st =>
    match getHash i with
    | .error e => ⟨st, [], some e⟩
    | .ok _ =>
      match checkAndSubmitEndorsement (lookup i) (writeOutcome i) accountName i st with
      | .error e => ⟨st, [], some e⟩
      | .ok (st₁, _, _) =>
        let r := scanHeights getHash lookup writeOutcome accountName rest st₁
        ⟨r.state, i :: r.processed, r.err⟩

/-- One endorse-check scan cycle: `for (let i = startHeight; i <= tip; i++)`
iterates exactly the heights `startHeight, startHeight+1, ..., tip` in
ascending order (empty when `startHeight > tip`). -/
def scanCycle (getHash : Nat → Except String String)
    (lookup : Nat → Except String (Option EndorsementRecord))
    (writeOutcome : Nat → ExecOutcome) (accountName : String)
    (startHeight tip : Nat) (st : RunState) : ScanResult :=
  scanHeights getHash lookup writeOutcome accountName
    (List.range' startHeight (tip + 1 - startHeight)) st

/-! ## Scheduler run-guards (lines 75-99 and 102-137)

Each cron callback is single-threaded JavaScript: from the guard test up to
the first `await`, it runs atomically.  A `tick` event is that atomic guard
prefix; a `finish` event is the end of an in-flight cycle body (its
`finally`).  `inflight` counts cycle bodies that have started and not yet
reached their `finally`. -/

/-- Guard state of one cron job: its `*Running` flag and the number of
in-flight cycle bodies. -/
structure GuardState where
  flag : Bool
  inflight : Nat
deriving Repr, DecidableEq

/-- A tick of the regular-endorsement cron (lines 83-92).  The guard test sits
INSIDE the `try` (line 84): when the flag is held the callback returns early,
but the `finally` (line 97) still runs and clears `endorseRunning`.  When the
flag is free, the callback sets it and the cycle body starts (suspending at
its first `await`). -/
def endorseTick (g : GuardState) : GuardState :=
  if g.flag then
    ⟨false, g.inflight⟩
  else
    ⟨true, g.inflight + 1⟩

/-- Completion (normal or thrown) of an in-flight regular-endorsement cycle
body: the `finally` on lines 96-98 clears the flag. -/
def endorseFinish (g : GuardState) : GuardState :=
  ⟨false, g.inflight - 1⟩

/-- A tick of the endorse-check cron (lines 110-113).  Here the guard test is
BEFORE the `try`: a skipped tick returns without touching the flag. -/
def endorseCheckTick (g : GuardState) : GuardState :=
  if g.flag then
    g
  else
    ⟨true, g.inflight + 1⟩

/-- Completion of an in-flight endorse-check cycle body: the `finally` on
lines 134-136 clears the flag. -/
def endorseCheckFinish (g : GuardState) : GuardState :=
  ⟨false, g.inflight - 1⟩

/-- Scheduler events for one cron job. -/
inductive GuardEvent where
  | tick
  | finish
deriving Repr, DecidableEq

/-- Run the endorse-check cron's guard protocol over an event trace.
A `finish` event can only occur for a cycle that is in flight; traces are
constrained by `ValidTrace` below. -/
def runCheckTrace : List GuardEvent → GuardState → GuardState
  | [], g => g
  | .tick :: es, g => runCheckTrace es (endorseCheckTick g)
  | .finish :: es, g => runCheckTrace es (endorseCheckFinish g)

/-- A trace is valid when every `finish` happens while a cycle is in flight. -/
def ValidTrace : List GuardEvent → GuardState → Prop
  | [], _ => True
  | .tick :: es, g => ValidTrace es (endorseCheckTick g)
  | .finish :: es, g => 0 < g.inflight ∧ ValidTrace es (endorseCheckFinish g)

/-! ## Sequences of reconciliation calls

Used for the `lastSubmittedHeight` evolution across regular-endorsement and
catch-up cycles: each completed `checkAndSubmitEndorsement` call is described
by what its collaborators did. -/

/-- One `checkAndSubmitEndorsement` call as scheduled by either cron:
the height argument, what the ledger lookup returned (or threw), and what the
ledger write did if reached. -/
structure CallSpec where
  height : Nat
  lookup : Except String (Option EndorsementRecord)
  writeOutcome : ExecOutcome
deriving Repr

/-- Effect of one call on the module state.  A call that throws (lookup
error) leaves the state unchanged: in the source, the only state writes in
`checkAndSubmitEndorsement` come after the lookup has returned. -/
def applyCall (accountName : String) (c : CallSpec) (st : RunState) : RunState :=
  match checkAndSubmitEndorsement c.lookup c.writeOutcome accountName c.height st with
  | .ok (st₁, _, _) => st₁
  | .error _ => st

/-- Run a sequence of reconciliation calls in order. -/
def runCalls (accountName : String) : List CallSpec → RunState → RunState
  | [], st => st
  | c :: cs, st => runCalls accountName cs (applyCall accountName c st)

/-- A call writes `lastSubmittedHeight` iff its lookup returned a record and
the account is requested but not yet a provider (line 45 of the source). -/
def callWritesLSH (accountName : String) (c : CallSpec) : Bool :=
  match c.lookup with
  | .ok (some endorsement) =>
    isEndorserQualified endorsement.requested_validators accountName &&
      !isEndorserQualified endorsement.provider_validators accountName
  | .ok none => false
  | .error _ => false

/-! ## Supporting lemmas -/

/-- `isEndorserQualified` decides membership of the account name in the
`account` projections of the list. -/
theorem isEndorserQualified_eq_true (endorsers : List Endorser) (accountName : String) :
    isEndorserQualified endorsers accountName = true ↔
      ∃ e ∈ endorsers, e.account = accountName := by
  simp [isEndorserQualified, List.any_eq_true]

/-- The Submitter's `try`/`catch` covers its whole body, so it returns
normally on every collaborator outcome. -/
theorem submitEndorsement_shape (outcome : ExecOutcome) (height : Nat) (st : RunState) :
    ∃ st₁ logs, submitEndorsement outcome height st = .ok (st₁, logs) := by
  cases outcome with
  | ok transaction_id => cases transaction_id <;> exact ⟨_, _, rfl⟩
  | thrown msg =>
    unfold submitEndorsement
    by_cases h₁ : jsIncludes msg parsedMsg <;> by_cases h₂ : jsIncludes msg disabledMsg <;>
      simp [h₁, h₂]

/-- The Submitter never writes `lastSubmittedHeight` (only line 45 of
`checkAndSubmitEndorsement` does). -/
theorem submitEndorsement_preserves_lsh (outcome : ExecOutcome) (height : Nat)
    (st st₁ : RunState) (logs : List LogEntry)
    (h : submitEndorsement outcome height st = .ok (st₁, logs)) :
    st₁.lastSubmittedHeight = st.lastSubmittedHeight := by
  cases outcome with
  | ok transaction_id =>
    cases transaction_id <;> simp [submitEndorsement] at h <;> simp [← h.1]
  | thrown msg =>
    unfold submitEndorsement at h
    by_cases h₁ : jsIncludes msg parsedMsg <;> by_cases h₂ : jsIncludes msg disabledMsg <;>
      simp [h₁, h₂] at h <;> simp [← h.1]

/-- A reconciliation call only throws when the ledger lookup throws. -/
theorem checkAndSubmit_ok_of_lookup_ok (r : Option EndorsementRecord)
    (writeOutcome : ExecOutcome) (accountName : String) (height : Nat) (st : RunState) :
    ∃ out, checkAndSubmitEndorsement (.ok r) writeOutcome accountName height st = .ok out := by
  cases r with
  | none =>
    obtain ⟨st₁, logs, h⟩ := submitEndorsement_shape writeOutcome height st
    refine ⟨(st₁, logs, 1), ?_⟩
    simp [checkAndSubmitEndorsement, h]
  | some endorsement =>
    unfold checkAndSubmitEndorsement
    by_cases hq : (isEndorserQualified endorsement.requested_validators accountName &&
        !isEndorserQualified endorsement.provider_validators accountName) = true
    · obtain ⟨st₁, logs, h⟩ := submitEndorsement_shape writeOutcome height st
      simp [hq, h]
    · simp [hq]

/-- The net effect of one completed call on `lastSubmittedHeight`:
it becomes the call's height exactly when the record-present submit branch
(line 43-46) runs, and is untouched otherwise — including in the
record-absent branch (line 48), whatever the write outcome. -/
theorem applyCall_lsh (accountName : String) (c : CallSpec) (st : RunState) :
    (applyCall accountName c st).lastSubmittedHeight =
      if callWritesLSH accountName c then c.height else st.lastSubmittedHeight := by
  obtain ⟨height, lookup, writeOutcome⟩ := c
  cases lookup with
  | error e => simp [applyCall, checkAndSubmitEndorsement, callWritesLSH]
  | ok r =>
    cases r with
    | none =>
      obtain ⟨st₁, logs, h⟩ := submitEndorsement_shape writeOutcome height st
      simp [applyCall, checkAndSubmitEndorsement, callWritesLSH, h,
        submitEndorsement_preserves_lsh writeOutcome height st st₁ logs h]
    | some endorsement =>
      by_cases hq : (isEndorserQualified endorsement.requested_validators accountName &&
          !isEndorserQualified endorsement.provider_validators accountName) = true
      · obtain ⟨st₁, logs, h⟩ := submitEndorsement_shape writeOutcome height st
        simp [applyCall, checkAndSubmitEndorsement, callWritesLSH, hq, h]
      · simp [applyCall, checkAndSubmitEndorsement, callWritesLSH, hq]

/-- When every per-height read (block-hash fetch and ledger lookup) succeeds
on the heights of `l`, the scan completes all of `l` in order with no aborting
error, whatever the ledger writes do. -/
theorem scanHeights_all_reads_ok (getHash : Nat → Except String String)
    (lookup : Nat → Except String (Option EndorsementRecord))
    (writeOutcome : Nat → ExecOutcome) (accountName : String) (l : List Nat)
    (hok : ∀ i ∈ l, (∃ s, getHash i = .ok s) ∧ ∃ r, lookup i = .ok r) (st : RunState) :
    (scanHeights getHash lookup writeOutcome accountName l st).processed = l ∧
    (scanHeights getHash lookup writeOutcome accountName l st).err = none := by
  induction l generalizing st with
  | nil => simp [scanHeights]
  | cons i rest ih =>
    obtain ⟨⟨s, hs⟩, ⟨r, hr⟩⟩ := hok i (by simp)
    obtain ⟨out, hout⟩ := checkAndSubmit_ok_of_lookup_ok r (writeOutcome i) accountName i st
    obtain ⟨st₁, logs, n⟩ := out
    have hcs : checkAndSubmitEndorsement (lookup i) (writeOutcome i) accountName i st =
        .ok (st₁, logs, n) := by rw [hr]; exact hout
    have hrest := ih (fun j hj => hok j (by simp [hj])) st₁
    simp [scanHeights, hs, hcs, hrest.1, hrest.2]

/-! ## Claim theorems -/

/-- C1: `checkAndSubmitEndorsement` invokes the Submitter exactly once when
the ledger returns no record; exactly once when a record exists with
`accountName` among `requested_validators` and not among
`provider_validators`; and never when `accountName` is among
`provider_validators`. -/
theorem checkAndSubmitEndorsement_submitter_policy
    (writeOutcome : ExecOutcome) (accountName : String) (height : Nat)
    (st : RunState) (endorsement : EndorsementRecord) :
    submitCount (checkAndSubmitEndorsement (.ok none) writeOutcome accountName height st) = 1 ∧
    ((∃ e ∈ endorsement.requested_validators, e.account = accountName) →
      (∀ e ∈ endorsement.provider_validators, e.account ≠ accountName) →
      submitCount (checkAndSubmitEndorsement (.ok (some endorsement)) writeOutcome
        accountName height st) = 1) ∧
    ((∃ e ∈ endorsement.provider_validators, e.account = accountName) →
      submitCount (checkAndSubmitEndorsement (.ok (some endorsement)) writeOutcome
        accountName height st) = 0) := by
  obtain ⟨st₁, logs, hsub⟩ := submitEndorsement_shape writeOutcome height st
  refine ⟨by simp [checkAndSubmitEndorsement, hsub, submitCount], ?_, ?_⟩
  · intro hreq hprov
    have hq : isEndorserQualified endorsement.requested_validators accountName = true :=
      (isEndorserQualified_eq_true _ _).mpr hreq
    have hp : isEndorserQualified endorsement.provider_validators accountName = false := by
      rw [Bool.eq_false_iff]
      intro hc
      obtain ⟨e, he, hacc⟩ := (isEndorserQualified_eq_true _ _).mp hc
      exact hprov e he hacc
    simp [checkAndSubmitEndorsement, hq, hp, hsub, submitCount]
  · intro hprov
    have hp : isEndorserQualified endorsement.provider_validators accountName = true :=
      (isEndorserQualified_eq_true _ _).mpr hprov
    simp [checkAndSubmitEndorsement, hp, submitCount]

/-- C1 witness: the three cases at concrete inputs — no record; a record
requesting `alice` with no providers; a record listing `alice` as provider. -/
theorem checkAndSubmitEndorsement_submitter_policy_witness :
    submitCount (checkAndSubmitEndorsement (.ok none) (.ok (some "t")) "alice" 100 ⟨0, 0⟩) = 1 ∧
    submitCount (checkAndSubmitEndorsement (.ok (some ⟨[⟨"alice", 1⟩], []⟩)) (.ok (some "t"))
      "alice" 100 ⟨0, 0⟩) = 1 ∧
    submitCount (checkAndSubmitEndorsement (.ok (some ⟨[⟨"alice", 1⟩], [⟨"alice", 1⟩]⟩))
      (.ok (some "t")) "alice" 100 ⟨0, 0⟩) = 0 :=
  ⟨(checkAndSubmitEndorsement_submitter_policy (.ok (some "t")) "alice" 100 ⟨0, 0⟩
      ⟨[⟨"alice", 1⟩], []⟩).1,
   (checkAndSubmitEndorsement_submitter_policy (.ok (some "t")) "alice" 100 ⟨0, 0⟩
      ⟨[⟨"alice", 1⟩], []⟩).2.1 (by decide) (by decide),
   (checkAndSubmitEndorsement_submitter_policy (.ok (some "t")) "alice" 100 ⟨0, 0⟩
      ⟨[⟨"alice", 1⟩], [⟨"alice", 1⟩]⟩).2.2 (by decide)⟩

/-- C2: the catch-up start-height guard on line 123 compares
`lastEndorseHeight` against `blockcount - 6` where `blockcount` is the RPC
response OBJECT, so the comparison is against `NaN` and is always false: the
scan always starts at `irreversible_height + 1`, never at `lastEndorseHeight`.
At `I = 500`, `L = 505`, `tip = 520` the spec rule selects 505 but the code
selects 501. -/
theorem startEndorseHeight_always_irreversible_succ :
    (∀ irreversible_height lastEndorseHeight blockcount,
      startEndorseHeight irreversible_height lastEndorseHeight blockcount =
        irreversible_height + 1) ∧
    startEndorseHeight 500 505 ⟨520⟩ = 501 ∧
    startEndorseHeightSpec 500 505 520 = 505 :=
  ⟨fun _ _ _ => by simp [startEndorseHeight, toNumber, jsSub, jsLt], rfl, rfl⟩

/-- C3: the regular-endorsement cron's guard test sits inside the `try`
(line 84), so a tick that skips because `endorseRunning` is true still runs
the `finally` (line 97) and clears the flag.  Trace: a first tick acquires
the guard and its cycle body is still in flight; a second tick skips but
clears the flag; a third tick then starts a second concurrent cycle —
two regular-endorsement cycles in flight at once. -/
theorem endorseRunning_guard_reentrancy :
    endorseTick ⟨false, 0⟩ = ⟨true, 1⟩ ∧
    endorseTick ⟨true, 1⟩ = ⟨false, 1⟩ ∧
    endorseTick ⟨false, 1⟩ = ⟨true, 2⟩ :=
  ⟨rfl, rfl, rfl⟩

/-- By contrast, the endorse-check cron tests its guard before the `try`
(lines 110-112), and along every valid event trace at most one endorse-check
cycle is in flight. -/
theorem endorseCheck_at_most_one_inflight (es : List GuardEvent) (g : GuardState)
    (hv : ValidTrace es g) (hg : g.inflight ≤ cond g.flag 1 0) :
    (runCheckTrace es g).inflight ≤ 1 := by
  induction es generalizing g with
  | nil =>
    have : g.inflight ≤ 1 := le_trans hg (by cases g.flag <;> simp)
    simpa [runCheckTrace]
  | cons e es ih =>
    cases e with
    | tick =>
      refine ih (endorseCheckTick g) hv ?_
      by_cases hf : g.flag
      · simpa [endorseCheckTick, hf] using hg
      · simp only [Bool.not_eq_true] at hf
        rw [hf] at hg
        simp only [cond] at hg
        have h0 : g.inflight = 0 := Nat.le_zero.mp hg
        simp [endorseCheckTick, hf, h0]
    | finish =>
      obtain ⟨hpos, hv'⟩ := hv
      refine ih (endorseCheckFinish g) hv' ?_
      have : g.flag = true := by
        by_contra hf
        simp only [Bool.not_eq_true] at hf
        rw [hf] at hg
        simp at hg
        omega
      rw [this] at hg
      simp only [cond] at hg
      simp [endorseCheckFinish]
      omega

/-- C4 counterexample: with no record on the ledger (line 47 branch) and a
successful ledger write (`transaction_id` returned), the submission succeeds
— `lastEndorseHeight` becomes 100 — yet `lastSubmittedHeight` keeps its old
value 7: the liveness value is NOT set on this successful submission. -/
theorem lastSubmittedHeight_missed_success :
    applyCall "alice" ⟨100, .ok none, .ok (some "tx1")⟩ ⟨0, 7⟩ = ⟨100, 7⟩ :=
  rfl

/-- C4 amended: `lastSubmittedHeight` is set to the call's height exactly when
the record-present submit branch runs (record exists, `accountName` requested
and not yet a provider), regardless of whether the ledger write succeeds; it
is unchanged in every other case, including a successful submission in the
record-absent branch. -/
theorem lastSubmittedHeight_update_rule (accountName : String) (c : CallSpec)
    (st : RunState) :
    (applyCall accountName c st).lastSubmittedHeight =
      if callWritesLSH accountName c then c.height else st.lastSubmittedHeight :=
  applyCall_lsh accountName c st

/-- C5 counterexample: an unexpected ledger-write failure at height 10 (the
Submitter's catch-all `catch` branch) does NOT abort the scan: heights 11 and
12 are still processed in the same cycle and the cycle ends without error. -/
theorem scan_not_aborted_by_write_failure :
    scanCycle (fun _ => .ok "hash") (fun _ => .ok none)
      (fun i => if i = 10 then .thrown "unexpected ledger error" else .ok (some "t"))
      "alice" 10 12 ⟨0, 0⟩ = ⟨⟨12, 0⟩, [10, 11, 12], none⟩ :=
  rfl

/-- C5 amended: only an error thrown by a per-height READ — the block-hash
fetch (line 127) or the endorsement lookup inside the Reconciler (line 40) —
aborts the remainder of the scan cycle: the heights before the failing one
keep their effects and remain processed, the failing height and everything
after it are not processed.  Ledger-write failures are caught inside the
Submitter and do not abort the scan. -/
theorem scan_aborts_on_read_error (getHash : Nat → Except String String)
    (lookup : Nat → Except String (Option EndorsementRecord))
    (writeOutcome : Nat → ExecOutcome) (accountName : String)
    (pre : List Nat) (h : Nat) (rest : List Nat) (st : RunState) (e : String)
    (hok : ∀ i ∈ pre, (∃ s, getHash i = .ok s) ∧ ∃ r, lookup i = .ok r)
    (hfail : getHash h = .error e ∨ ((∃ s, getHash h = .ok s) ∧ lookup h = .error e)) :
    (scanHeights getHash lookup writeOutcome accountName (pre ++ h :: rest) st).processed = pre ∧
    (scanHeights getHash lookup writeOutcome accountName (pre ++ h :: rest) st).err = some e := by
  induction pre generalizing st with
  | nil =>
    cases hfail with
    | inl hf => simp [scanHeights, hf]
    | inr hf =>
      obtain ⟨⟨s, hs⟩, hl⟩ := hf
      simp [scanHeights, hs, hl, checkAndSubmitEndorsement]
  | cons i pre ih =>
    obtain ⟨⟨s, hs⟩, ⟨r, hr⟩⟩ := hok i (by simp)
    obtain ⟨out, hout⟩ := checkAndSubmit_ok_of_lookup_ok r (writeOutcome i) accountName i st
    obtain ⟨st₁, logs, n⟩ := out
    have hcs : checkAndSubmitEndorsement (lookup i) (writeOutcome i) accountName i st =
        .ok (st₁, logs, n) := by rw [hr]; exact hout
    have hrest := ih st₁ (fun j hj => hok j (by simp [hj]))
    simp [scanHeights, hs, hcs, hrest.1, hrest.2]

/-- C5 witness: height 5's reads succeed, height 6's block-hash fetch throws;
the scan over 5, 6, 7 processes exactly height 5 and aborts with the thrown
error. -/
theorem scan_aborts_on_read_error_witness :
    (scanHeights (fun i => if i = 6 then .error "rpc down" else .ok "hash")
      (fun _ => .ok none) (fun _ => .ok (some "t")) "alice" ([5] ++ 6 :: [7])
      ⟨0, 0⟩).processed = [5] ∧
    (scanHeights (fun i => if i = 6 then .error "rpc down" else .ok "hash")
      (fun _ => .ok none) (fun _ => .ok (some "t")) "alice" ([5] ++ 6 :: [7])
      ⟨0, 0⟩).err = some "rpc down" :=
  scan_aborts_on_read_error _ _ _ "alice" [5] 6 [7] ⟨0, 0⟩ "rpc down"
    (by
      intro i hi
      simp at hi
      subst hi
      exact ⟨⟨"hash", rfl⟩, ⟨none, rfl⟩⟩)
    (Or.inl rfl)

/-- C6 counterexample: a regular-endorsement cycle submits at tip height 510
(record present, requested, not yet provider), setting `lastSubmittedHeight`
to 510; a later catch-up cycle reconciles height 501 under the same
conditions and overwrites `lastSubmittedHeight` down to 501 — the value
decreases. -/
theorem lastSubmittedHeight_can_decrease :
    runCalls "alice" [⟨510, .ok (some ⟨[⟨"alice", 1⟩], []⟩), .ok (some "t1")⟩] ⟨0, 0⟩ =
      ⟨510, 510⟩ ∧
    runCalls "alice" [⟨510, .ok (some ⟨[⟨"alice", 1⟩], []⟩), .ok (some "t1")⟩,
      ⟨501, .ok (some ⟨[⟨"alice", 1⟩], []⟩), .ok (some "t2")⟩] ⟨0, 0⟩ = ⟨501, 501⟩ :=
  ⟨rfl, rfl⟩

/-- C6 amended: across any sequence of completed reconciliation calls,
`lastSubmittedHeight` equals the height of the most recent call that took the
record-present submit branch (requested and not yet provider), or its initial
value when no call did; each such write overwrites the value unconditionally,
so it is not monotone. -/
theorem lastSubmittedHeight_last_write_wins (accountName : String)
    (calls : List CallSpec) (st : RunState) :
    (runCalls accountName calls st).lastSubmittedHeight =
      ((calls.reverse.find? (callWritesLSH accountName)).map CallSpec.height).getD
        st.lastSubmittedHeight := by
  induction calls generalizing st with
  | nil => simp [runCalls]
  | cons c cs ih =>
    rw [runCalls, ih]
    rw [List.reverse_cons, List.find?_append]
    cases hf : cs.reverse.find? (callWritesLSH accountName) with
    | some x => simp [hf]
    | none =>
      cases hc : callWritesLSH accountName c <;>
        simp [hf, hc, applyCall_lsh, List.find?]

/-- C7 counterexample: a thrown message that CONTAINS the phrase
"current endorsement status is disabled" but not the full pattern matched on
line 64 (which starts with "blkendt.xsat::endorse: ") falls through to the
catch-all branch and is logged at ERROR level, not informational level. -/
theorem disabled_phrase_logged_as_error :
    jsIncludes "current endorsement status is disabled"
      "current endorsement status is disabled" = true ∧
    submitEndorsement (.thrown "current endorsement status is disabled") 42 ⟨3, 4⟩ =
      .ok (⟨3, 4⟩, [⟨LogLevel.error, "Submit endorsement failed"⟩]) :=
  ⟨rfl, rfl⟩

/-- C7 amended: when the ledger write fails with a message containing the full
pattern "blkendt.xsat::endorse: the current endorsement status is disabled"
(or the full already-parsed pattern), `submitEndorsement` treats it as a
benign no-op: one informational log line, no exception propagates, and the
state — in particular `lastEndorseHeight` — is unchanged. -/
theorem submitEndorsement_benign_rejections (msg : String) (height : Nat)
    (st : RunState)
    (h : jsIncludes msg parsedMsg = true ∨ jsIncludes msg disabledMsg = true) :
    ∃ tag, submitEndorsement (.thrown msg) height st = .ok (st, [⟨LogLevel.info, tag⟩]) := by
  by_cases h₁ : jsIncludes msg parsedMsg
  · refine ⟨"The block has been parsed and does not need to be endorsed", ?_⟩
    simp [submitEndorsement, h₁]
  · have h₂ : jsIncludes msg disabledMsg = true := by
      cases h with
      | inl hp => exact absurd hp h₁
      | inr hd => exact hd
    refine ⟨"Wait for exsat network endorsement to be enabled", ?_⟩
    simp [submitEndorsement, h₁, h₂]

/-- C7 witness: the exact on-chain message of the disabled rejection is
handled benignly with the state untouched. -/
theorem submitEndorsement_benign_rejections_witness :
    ∃ tag, submitEndorsement (.thrown disabledMsg) 9 ⟨1, 2⟩ =
      .ok (⟨1, 2⟩, [⟨LogLevel.info, tag⟩]) :=
  submitEndorsement_benign_rejections disabledMsg 9 ⟨1, 2⟩ (Or.inr (by decide))

/-- C8: when every per-height read succeeds and `startHeight ≤ tip`, the scan
cycle processes exactly the heights `startHeight, ..., tip`, in strictly
ascending order, with no height skipped and no aborting error — whatever the
ledger writes do at each height. -/
theorem scanCycle_processes_exact_range (getHash : Nat → Except String String)
    (lookup : Nat → Except String (Option EndorsementRecord))
    (writeOutcome : Nat → ExecOutcome) (accountName : String)
    (startHeight tip : Nat) (st : RunState) (hle : startHeight ≤ tip)
    (hok : ∀ i, startHeight ≤ i → i ≤ tip →
      (∃ s, getHash i = .ok s) ∧ ∃ r, lookup i = .ok r) :
    (scanCycle getHash lookup writeOutcome accountName startHeight tip st).processed =
      List.range' startHeight (tip + 1 - startHeight) ∧
    List.Pairwise (· < ·)
      (scanCycle getHash lookup writeOutcome accountName startHeight tip st).processed ∧
    (scanCycle getHash lookup writeOutcome accountName startHeight tip st).err = none := by
  have hmem : ∀ i ∈ List.range' startHeight (tip + 1 - startHeight),
      (∃ s, getHash i = .ok s) ∧ ∃ r, lookup i = .ok r := by
    intro i hi
    rw [List.mem_range'_1] at hi
    exact hok i hi.1 (by omega)
  have h := scanHeights_all_reads_ok getHash lookup writeOutcome accountName
    (List.range' startHeight (tip + 1 - startHeight)) hmem st
  have hp : (scanCycle getHash lookup writeOutcome accountName startHeight tip st).processed =
      List.range' startHeight (tip + 1 - startHeight) := h.1
  have he : (scanCycle getHash lookup writeOutcome accountName startHeight tip st).err =
      none := h.2
  refine ⟨hp, ?_, he⟩
  rw [hp]
  exact List.pairwise_lt_range' startHeight (tip + 1 - startHeight)

/-- C8 witness: with all reads succeeding, the scan from 3 to 5 processes
exactly 3, 4, 5 in ascending order and ends without error. -/
theorem scanCycle_processes_exact_range_witness :
    (scanCycle (fun _ => .ok "hash") (fun _ => .ok none) (fun _ => .ok (some "t"))
      "alice" 3 5 ⟨0, 0⟩).processed = List.range' 3 (5 + 1 - 3) ∧
    List.Pairwise (· < ·)
      (scanCycle (fun _ => .ok "hash") (fun _ => .ok none) (fun _ => .ok (some "t"))
        "alice" 3 5 ⟨0, 0⟩).processed ∧
    (scanCycle (fun _ => .ok "hash") (fun _ => .ok none) (fun _ => .ok (some "t"))
      "alice" 3 5 ⟨0, 0⟩).err = none :=
  scanCycle_processes_exact_range _ _ _ "alice" 3 5 ⟨0, 0⟩ (by omega)
    (fun _ _ _ => ⟨⟨"hash", rfl⟩, ⟨none, rfl⟩⟩)

/-- C9: `isEndorserQualified(list, accountName)` returns true iff some entry
of the list has `account` equal to `accountName`; it is embedded as a pure
function (the source body is a single side-effect-free `Array.some`
predicate). -/
theorem isEndorserQualified_correct (endorsers : List Endorser) (accountName : String) :
    isEndorserQualified endorsers accountName = true ↔
      ∃ e ∈ endorsers, e.account = accountName :=
  isEndorserQualified_eq_true endorsers accountName

/-- C10: `submitEndorsement` returns normally on every outcome of the ledger
write — success with or without a transaction id, either benign rejection, or
any other thrown error — because its whole body is wrapped in a `try`/`catch`
whose handler always returns; no exception ever propagates to the caller. -/
theorem submitEndorsement_never_throws (outcome : ExecOutcome) (height : Nat)
    (st : RunState) :
    ∃ st₁ logs, submitEndorsement outcome height st = .ok (st₁, logs) :=
  submitEndorsement_shape outcome height st

end ExsatValidator
